import Mathlib

/-!
# Shallow embedding of the event-registration API

This file embeds the data model and operations of a small event-registration
REST service (Express + Sequelize + MySQL) in Lean 4 and proves properties
about them.

Sources embedded:
* `src/models/Event.js`, `src/models/Registration.js` — Sequelize models;
* the events router (`router.get('/')`, `router.post('/')`,
  `router.post('/:id/register')`, `router.put('/:id')`, `router.delete('/:id')`);
* `events_db.sql` / the migration — relational schema with
  `ON DELETE CASCADE` foreign keys from `Registrations` to `Users` and `Events`.

UUID primary keys are modelled as `Nat` identifiers drawn from per-table
counters (the only property of UUIDv4 the code relies on is that freshly
generated keys are distinct from existing ones); SQL `DATETIME` values are
modelled as `Nat` timestamps; JS number arithmetic on the small non-negative
integers involved (counts, pages, limits, capacities) is exact, so `Nat`
arithmetic models it faithfully.
-/

namespace EventsApi

/-- `Registration.status` enum: `ENUM('PENDING','CONFIRMED','CANCELLED')`,
default `'PENDING'`. -/
inductive RegStatus where
  | pending
  | confirmed
  | cancelled
deriving DecidableEq, Repr, BEq

/-- `User.role` enum: `ENUM('ADMIN','USER')`, default `'USER'`. -/
inductive Role where
  | admin
  | user
deriving DecidableEq, Repr, BEq

/-- A row of the `Users` table (`models/User.js` / `events_db.sql`). -/
structure User where
  id : Nat
  name : String
  email : String
  password : String
  role : Role
deriving DecidableEq, Repr, BEq

/-- A row of the `Events` table (`models/Event.js`): id, name,
optional description, date, location, capacity (validated `min: 1`). -/
structure Event where
  id : Nat
  name : String
  description : Option String
  date : Nat
  location : String
  capacity : Nat
deriving DecidableEq, Repr, BEq

/-- A row of the `Registrations` table (`models/Registration.js`):
id, status, and the foreign keys `UserId` and `EventId` added by the
associations (both nullable `CHAR(36)` columns in the schema). -/
structure Registration where
  id : Nat
  status : RegStatus
  UserId : Option Nat
  EventId : Option Nat
deriving DecidableEq, Repr, BEq

/-- The relational store: the three tables, plus per-table counters
supplying fresh primary keys (modelling `UUIDV4` default values). -/
structure Store where
  users : List User
  events : List Event
  registrations : List Registration
  nextUserId : Nat
  nextEventId : Nat
  nextRegId : Nat
deriving DecidableEq, Repr

/-- The empty database (state after `sequelize.sync()` on a fresh schema). -/
def initStore : Store :=
  { users := [], events := [], registrations := []
    nextUserId := 0, nextEventId := 0, nextRegId := 0 }

/-- `Event.findByPk(id)`: look up an event by primary key. -/
def findEvent (events : List Event) (eid : Nat) : Option Event :=
  events.find? (fun e => e.id == eid)

/-- `Registration.count({ where: { EventId: event.id, status: 'CONFIRMED' } })`:
the number of registration rows for the event whose status is CONFIRMED. -/
def confirmedCount (regs : List Registration) (eid : Nat) : Nat :=
  (regs.filter (fun r => r.EventId == some eid && r.status == RegStatus.confirmed)).length

/-- Outcome of `POST /api/events/:id/register` (after the `auth` middleware):
404 `Event not found`, 400 `Event is full`, or 201 with the created row. -/
inductive RegisterResult where
  | notFound
  | eventFull
  | created (r : Registration)
deriving DecidableEq, Repr, BEq

/-- The HTTP status code each branch of the register handler responds with. -/
def RegisterResult.httpStatus : RegisterResult → Nat
  | .notFound => 404
  | .eventFull => 400
  | .created _ => 201

/-- The error message each failing branch of the register handler sends. -/
def RegisterResult.errorMessage : RegisterResult → Option String
  | .notFound => some "Event not found"
  | .eventFull => some "Event is full"
  | .created _ => none

/-- The register handler `router.post('/:id/register', auth, ...)`:
find the event by primary key (404 if absent), count CONFIRMED
registrations for it, reject with 400 `Event is full` if the count
reaches capacity, otherwise insert
`Registration.create({ UserId: req.user.id, EventId: event.id })` —
no `status` supplied, so the row takes the default `'PENDING'` —
and answer 201 with the created row. -/
def registerForEvent (s : Store) (eid uid : Nat) : RegisterResult × Store :=
  match findEvent s.events eid with
  | none => (RegisterResult.notFound, s)
  | some ev =>
    if confirmedCount s.registrations ev.id ≥ ev.capacity then
      (RegisterResult.eventFull, s)
    else
      let r : Registration :=
        { id := s.nextRegId, status := RegStatus.pending
          UserId := some uid, EventId := some ev.id }
      (RegisterResult.created r,
       { s with registrations := s.registrations ++ [r]
                nextRegId := s.nextRegId + 1 })

/-- Request body for creating or updating an event (`req.body`). -/
structure EventData where
  name : String
  description : Option String
  date : Nat
  location : String
  capacity : Nat
deriving DecidableEq, Repr, BEq

/-- `Event.create(req.body)` (`router.post('/', auth, ...)`): Sequelize runs
the model validation (`capacity: { validate: { min: 1 } }`, mirrored by
`CHECK (capacity >= 1)` in the schema), so creation fails with HTTP 400 when
`capacity < 1`; otherwise a fresh row is inserted and returned with 201. -/
def createEvent (s : Store) (d : EventData) : Option Event × Store :=
  if d.capacity < 1 then (none, s)
  else
    let e : Event :=
      { id := s.nextEventId, name := d.name, description := d.description
        date := d.date, location := d.location, capacity := d.capacity }
    (some e, { s with events := s.events ++ [e], nextEventId := s.nextEventId + 1 })

/-- `event.update(req.body)` applied to one row: replace the mutable columns,
keeping the primary key. -/
def updateEventRow (ev : Event) (d : EventData) : Event :=
  { ev with name := d.name, description := d.description, date := d.date
            location := d.location, capacity := d.capacity }

/-- HTTP-level outcome of the update and delete routes. -/
inductive RouteResult where
  | unauthorized
  | forbidden
  | notFound
  | badRequest
  | okEvent (e : Event)
  | noContent
deriving DecidableEq, Repr, BEq

/-- Body of `router.put('/:id')` after its middleware: find the event by
primary key (404 if absent) and apply `event.update(req.body)`; Sequelize
validates on update as well, so `capacity < 1` fails with 400. -/
def updateEvent (s : Store) (eid : Nat) (d : EventData) : RouteResult × Store :=
  match findEvent s.events eid with
  | none => (RouteResult.notFound, s)
  | some ev =>
    if d.capacity < 1 then (RouteResult.badRequest, s)
    else
      let e2 := updateEventRow ev d
      (RouteResult.okEvent e2,
       { s with events := s.events.map (fun e => if e.id == ev.id then e2 else e) })

/-- `event.destroy()` on an `Events` row: the schema's
`FOREIGN KEY (EventId) REFERENCES Events(id) ON DELETE CASCADE`
(`registrations_ibfk_2` in `events_db.sql`) also removes every
registration row whose `EventId` references the deleted event. -/
def destroyEvent (s : Store) (eid : Nat) : Store :=
  { s with events := s.events.filter (fun e => !(e.id == eid))
           registrations := s.registrations.filter (fun r => !(r.EventId == some eid)) }

/-- Deleting a `Users` row: the schema's
`FOREIGN KEY (UserId) REFERENCES Users(id) ON DELETE CASCADE`
(`registrations_ibfk_1` in `events_db.sql`) also removes every
registration row whose `UserId` references the deleted user. -/
def destroyUser (s : Store) (uid : Nat) : Store :=
  { s with users := s.users.filter (fun u => !(u.id == uid))
           registrations := s.registrations.filter (fun r => !(r.UserId == some uid)) }

/-- Body of `router.delete('/:id')` after its middleware: find the event by
primary key (404 if absent), destroy it (cascading its registrations), and
answer 204 with no body. -/
def deleteEvent (s : Store) (eid : Nat) : RouteResult × Store :=
  match findEvent s.events eid with
  | none => (RouteResult.notFound, s)
  | some ev => (RouteResult.noContent, destroyEvent s ev.id)

/-- Modelled from the spec: `src/middleware/auth.js` is not in the repository
snapshot (only its import and its use in the routes are). Per the spec's
external interface ("auth required" on the protected routes) the `auth`
middleware admits exactly the requests carrying an authenticated user. -/
def authPasses (caller : Option User) : Bool :=
  caller.isSome

/-- Modelled from the spec: `src/middleware/auth.js` is not in the repository
snapshot. Per the spec ("DELETE /api/events/:id (auth + admin)"; the route's
own documentation says "Only accessible to admins") the `isAdmin` middleware
admits exactly callers whose role is ADMIN. -/
def isAdminPasses (caller : Option User) : Bool :=
  match caller with
  | some u => u.role == Role.admin
  | none => false

/-- `router.put('/:id', auth, ...)`: the update route is guarded by `auth`
alone — no `isAdmin` in its middleware list. -/
def putEventRoute (caller : Option User) (s : Store) (eid : Nat) (d : EventData) :
    RouteResult × Store :=
  if authPasses caller then updateEvent s eid d
  else (RouteResult.unauthorized, s)

/-- `router.delete('/:id', [auth, isAdmin], ...)`: the delete route is guarded
by `auth` followed by `isAdmin`. -/
def deleteEventRoute (caller : Option User) (s : Store) (eid : Nat) :
    RouteResult × Store :=
  if authPasses caller then
    if isAdminPasses caller then deleteEvent s eid
    else (RouteResult.forbidden, s)
  else (RouteResult.unauthorized, s)

/-- The column named by the `sort` query parameter (default `'date'`). -/
inductive SortField where
  | date
  | name
  | location
  | capacity
deriving DecidableEq, Repr, BEq

/-- The boolean comparison that `ORDER BY <field> ASC` induces on event rows. -/
def fieldLe : SortField → Event → Event → Bool
  | .date, a, b => decide (a.date ≤ b.date)
  | .name, a, b => decide (a.name ≤ b.name)
  | .location, a, b => decide (a.location ≤ b.location)
  | .capacity, a, b => decide (a.capacity ≤ b.capacity)

/-- The full event list in ascending order of the sort field
(`order: [[sort, 'ASC']]`). -/
def sortedEvents (s : Store) (f : SortField) : List Event :=
  s.events.mergeSort (fieldLe f)

/-- The JSON body `router.get('/')` responds with. -/
structure ListResult where
  events : List Event
  totalPages : Nat
  currentPage : Nat
deriving DecidableEq, Repr, BEq

/-- `router.get('/')`: `Event.findAndCountAll({ limit, offset: (page-1)*limit,
order: [[sort, 'ASC']] })`, answered as the page rows together with
`totalPages = Math.ceil(count / limit)` and `currentPage = page`. On the
positive integers involved, `Math.ceil(count / limit)` is the Nat ceiling
division `(count + limit - 1) / limit`. -/
def listEvents (s : Store) (page limit : Nat) (f : SortField) : ListResult :=
  { events := ((sortedEvents s f).drop ((page - 1) * limit)).take limit
    totalPages := (s.events.length + limit - 1) / limit
    currentPage := page }

/-- Modelled from the spec: `src/routes/auth.js` (signup) is not in the
repository snapshot. Per the spec a User row is created at signup with the
fields of §3 and a fresh id, and the auth routes never touch the Events or
Registrations tables. -/
def signupUser (s : Store) (n email pw : String) (r : Role) : Store :=
  { s with users := s.users ++ [{ id := s.nextUserId, name := n, email := email
                                  password := pw, role := r }]
           nextUserId := s.nextUserId + 1 }

/-- One state-changing transition of the system. Each constructor applies the
corresponding handler body to the store, ignoring the HTTP response; the
transitions are taken without their auth gates, so every state the gated
system can reach is reachable here as well. `removeUser` is the data-level
deletion of a User row with its schema-mandated cascade. -/
inductive Op where
  | signup (n email pw : String) (r : Role)
  | removeUser (uid : Nat)
  | addEvent (d : EventData)
  | editEvent (eid : Nat) (d : EventData)
  | removeEvent (eid : Nat)
  | register (eid uid : Nat)
deriving Repr

/-- Apply one transition to the store. -/
def applyOp (s : Store) : Op → Store
  | .signup n e p r => signupUser s n e p r
  | .removeUser uid => destroyUser s uid
  | .addEvent d => (createEvent s d).2
  | .editEvent eid d => (updateEvent s eid d).2
  | .removeEvent eid => (deleteEvent s eid).2
  | .register eid uid => (registerForEvent s eid uid).2

/-- A store reachable from the empty database through the system's
transitions. -/
def reachable (s : Store) : Prop :=
  ∃ ops : List Op, s = ops.foldl applyOp initStore

/-- Every registration row in the store has status PENDING. -/
def allPendingInv (s : Store) : Prop :=
  ∀ r ∈ s.registrations, r.status = RegStatus.pending

/-- Every event row in the store has capacity at least 1 (the model/schema
validation). -/
def capacityPosInv (s : Store) : Prop :=
  ∀ e ∈ s.events, 1 ≤ e.capacity

/-- Every registration id already in the store is below the fresh-id counter. -/
def regIdsFreshInv (s : Store) : Prop :=
  ∀ r ∈ s.registrations, r.id < s.nextRegId

/-- Repeated sequential calls of the register handler by one user. -/
def repeatRegister (s : Store) (eid uid : Nat) : Nat → List RegisterResult × Store
  | 0 => ([], s)
  | n + 1 =>
    let p := registerForEvent s eid uid
    let q := repeatRegister p.2 eid uid n
    (p.1 :: q.1, q.2)

/-- An example event row with capacity 2. -/
def exEvent : Event :=
  { id := 0, name := "a", description := none, date := 1, location := "b", capacity := 2 }

/-- An example event row with capacity 1. -/
def exCap1Event : Event :=
  { id := 0, name := "a", description := none, date := 1, location := "b", capacity := 1 }

/-- A store holding one capacity-2 event and no registrations. -/
def exStore : Store :=
  { initStore with events := [exEvent], nextEventId := 1 }

/-- A store holding one capacity-1 event and no registrations. -/
def exCap1Store : Store :=
  { initStore with events := [exCap1Event], nextEventId := 1 }

/-- An example CONFIRMED registration row for event 0. -/
def exConfirmedReg : Registration :=
  { id := 0, status := RegStatus.confirmed, UserId := some 3, EventId := some 0 }

/-- A store whose capacity-1 event already has one CONFIRMED registration. -/
def exFullStore : Store :=
  { initStore with events := [exCap1Event], registrations := [exConfirmedReg]
                   nextEventId := 1, nextRegId := 1 }

/-- An example request body for event creation. -/
def exData : EventData :=
  { name := "a", description := none, date := 1, location := "b", capacity := 2 }

/-- An example authenticated caller with role USER. -/
def exUserAcc : User :=
  { id := 0, name := "u", email := "u@x", password := "p", role := Role.user }

/-- An example authenticated caller with role ADMIN. -/
def exAdminAcc : User :=
  { id := 1, name := "v", email := "v@x", password := "p", role := Role.admin }

/-- An example transition sequence: create an event, then register user 7. -/
def exOps : List Op := [Op.addEvent exData, Op.register 0 7]

/-- The registration row `exOps` creates. -/
def exReg0 : Registration :=
  { id := 0, status := RegStatus.pending, UserId := some 7, EventId := some 0 }

end EventsApi

namespace EventsApi

/-- A sanity example: registering against an existing empty event succeeds. -/
example :
    (registerForEvent exStore 0 5).1
    = RegisterResult.created
        { id := 0, status := RegStatus.pending, UserId := some 5, EventId := some 0 } := by
  rfl

/-- C1: the register handler, given an event id and a requesting user id,
(a) answers 404 NotFound when no event with that id exists, (b) compares the
count of the event's CONFIRMED registrations against its capacity,
(c) answers 400 `Event is full` when that count reaches the capacity, and
(d) otherwise appends exactly one new registration row referencing the user
and the event and answers 201 with it. -/
theorem register_admission_contract (s : Store) (eid uid : Nat) :
    (findEvent s.events eid = none →
      registerForEvent s eid uid = (RegisterResult.notFound, s) ∧
      RegisterResult.notFound.httpStatus = 404) ∧
    (∀ ev : Event, findEvent s.events eid = some ev →
      (ev.capacity ≤ confirmedCount s.registrations ev.id →
        registerForEvent s eid uid = (RegisterResult.eventFull, s) ∧
        RegisterResult.eventFull.httpStatus = 400 ∧
        RegisterResult.eventFull.errorMessage = some "Event is full") ∧
      (confirmedCount s.registrations ev.id < ev.capacity →
        ∃ r : Registration,
          registerForEvent s eid uid =
            (RegisterResult.created r,
             { s with registrations := s.registrations ++ [r]
                      nextRegId := s.nextRegId + 1 }) ∧
          r.UserId = some uid ∧ r.EventId = some ev.id ∧
          (RegisterResult.created r).httpStatus = 201)) := by
  refine ⟨fun h => ⟨?_, rfl⟩, fun ev hev => ⟨fun hge => ⟨?_, rfl, rfl⟩, fun hlt => ?_⟩⟩
  · simp [registerForEvent, h]
  · simp [registerForEvent, hev, hge]
  · refine ⟨⟨s.nextRegId, RegStatus.pending, some uid, some ev.id⟩, ?_, rfl, rfl, rfl⟩
    simp [registerForEvent, hev, Nat.not_le.mpr hlt]

/-- `register_admission_contract` exercised concretely on each branch:
a missing event id, a full event, and an admitted registration. -/
theorem register_admission_contract_witness :
    registerForEvent exStore 99 7 = (RegisterResult.notFound, exStore) ∧
    registerForEvent exFullStore 0 7 = (RegisterResult.eventFull, exFullStore) ∧
    ∃ r : Registration,
      registerForEvent exStore 0 7 =
        (RegisterResult.created r,
         { exStore with registrations := exStore.registrations ++ [r]
                        nextRegId := exStore.nextRegId + 1 }) ∧
      r.UserId = some 7 ∧ r.EventId = some exEvent.id ∧
      (RegisterResult.created r).httpStatus = 201 :=
  ⟨((register_admission_contract exStore 99 7).1 (by decide)).1,
   (((register_admission_contract exFullStore 0 7).2 exCap1Event (by decide)).1 (by decide)).1,
   ((register_admission_contract exStore 0 7).2 exEvent (by decide)).2 (by decide)⟩

/-- C3: with N CONFIRMED registrations present for an event of capacity N, the
next registration attempt answers 400 `Event is full` and leaves the
registrations table unchanged. -/
theorem register_at_capacity_rejected (s : Store) (eid uid N : Nat) (ev : Event)
    (hfind : findEvent s.events eid = some ev)
    (hcap : ev.capacity = N)
    (hcount : confirmedCount s.registrations ev.id = N) :
    registerForEvent s eid uid = (RegisterResult.eventFull, s) ∧
    (registerForEvent s eid uid).2.registrations = s.registrations := by
  have h1 : registerForEvent s eid uid = (RegisterResult.eventFull, s) := by
    simp [registerForEvent, hfind, hcount, hcap]
  exact ⟨h1, by rw [h1]⟩

/-- `register_at_capacity_rejected` at capacity 1 with one CONFIRMED row. -/
theorem register_at_capacity_rejected_witness :
    registerForEvent exFullStore 0 9 = (RegisterResult.eventFull, exFullStore) ∧
    (registerForEvent exFullStore 0 9).2.registrations = exFullStore.registrations :=
  register_at_capacity_rejected exFullStore 0 9 1 exCap1Event (by decide) (by decide)
    (by decide)

/-- C4: the capacity gate counts only CONFIRMED rows while every row the
handler creates carries the default status PENDING (the create call supplies
no status), so a successful registration leaves every CONFIRMED count — in
particular the one the gate reads — unchanged. -/
theorem register_gate_status_mismatch (s : Store) (eid uid : Nat)
    (r : Registration) (s2 : Store)
    (h : registerForEvent s eid uid = (RegisterResult.created r, s2)) :
    r.status = RegStatus.pending ∧
    s2.registrations = s.registrations ++ [r] ∧
    ∀ e, confirmedCount s2.registrations e = confirmedCount s.registrations e := by
  unfold registerForEvent at h
  split at h
  · simp at h
  · split at h
    · simp at h
    · simp only [Prod.mk.injEq, RegisterResult.created.injEq] at h
      obtain ⟨hr, hs⟩ := h
      subst hr
      subst hs
      refine ⟨rfl, rfl, fun e => ?_⟩
      simp [confirmedCount, List.filter_append]
      exact fun _ => rfl

/-- `register_gate_status_mismatch` at a concrete admitted registration. -/
theorem register_gate_status_mismatch_witness :
    exReg0.status = RegStatus.pending ∧
    (registerForEvent exStore 0 7).2.registrations = exStore.registrations ++ [exReg0] ∧
    confirmedCount (registerForEvent exStore 0 7).2.registrations 0
      = confirmedCount exStore.registrations 0 := by
  have h := register_gate_status_mismatch exStore 0 7 exReg0
    (registerForEvent exStore 0 7).2 (by rfl)
  exact ⟨h.1, h.2.1, h.2.2 0⟩

/-- C5: against a capacity-1 event with no confirmed registrations, two
register requests — run one after the other, which is one legal schedule of
two concurrent requests, and here every schedule gives the same counts since
the gate only reads CONFIRMED rows and only PENDING rows are written — are
both admitted with 201, and two registration rows are created. -/
theorem capacity_one_two_requests_both_admitted :
    (registerForEvent exCap1Store 0 7).1
      = RegisterResult.created
          { id := 0, status := RegStatus.pending, UserId := some 7, EventId := some 0 } ∧
    (registerForEvent (registerForEvent exCap1Store 0 7).2 0 8).1
      = RegisterResult.created
          { id := 1, status := RegStatus.pending, UserId := some 8, EventId := some 0 } ∧
    (registerForEvent (registerForEvent exCap1Store 0 7).2 0 8).2.registrations.length
      = 2 :=
  ⟨rfl, rfl, rfl⟩

/-- C6: deleting a User row (respectively an Event row) removes exactly the
registration rows whose UserId (respectively EventId) references it — a row
survives iff it does not reference the deleted parent — and the surviving
rows are kept verbatim, in order (the result is a sublist of the original
table). -/
theorem cascade_delete_registrations (s : Store) (uid eid : Nat) (r : Registration) :
    (r ∈ (destroyUser s uid).registrations ↔
      r ∈ s.registrations ∧ r.UserId ≠ some uid) ∧
    (r ∈ (destroyEvent s eid).registrations ↔
      r ∈ s.registrations ∧ r.EventId ≠ some eid) ∧
    (destroyUser s uid).registrations.Sublist s.registrations ∧
    (destroyEvent s eid).registrations.Sublist s.registrations := by
  refine ⟨?_, ?_, List.filter_sublist _, List.filter_sublist _⟩
  · simp [destroyUser, List.mem_filter]
  · simp [destroyEvent, List.mem_filter]

/-- Comparisons along each sortable column are transitive. -/
theorem fieldLe_trans (f : SortField) (a b c : Event) :
    fieldLe f a b → fieldLe f b c → fieldLe f a c := by
  cases f <;> simp [fieldLe] <;> exact fun h1 h2 => le_trans h1 h2

/-- Comparisons along each sortable column are total. -/
theorem fieldLe_total (f : SortField) (a b : Event) :
    fieldLe f a b || fieldLe f b a := by
  cases f <;> simp [fieldLe] <;> exact le_total _ _

/-- C7: `GET /api/events?limit=10&page=2` answers with the rows at positions
11 through 20 of the full event list in ascending order of the requested sort
field, `totalPages` equal to the ceiling of the event count divided by 10
(the least k with count ≤ 10·k), and `currentPage` equal to 2. -/
theorem listEvents_page2_limit10 (s : Store) (f : SortField) :
    (listEvents s 2 10 f).events = ((sortedEvents s f).drop 10).take 10 ∧
    (sortedEvents s f).Perm s.events ∧
    (sortedEvents s f).Pairwise (fun a b => fieldLe f a b = true) ∧
    (listEvents s 2 10 f).totalPages = (s.events.length + 9) / 10 ∧
    (∀ k : Nat, (listEvents s 2 10 f).totalPages ≤ k ↔ s.events.length ≤ 10 * k) ∧
    (listEvents s 2 10 f).currentPage = 2 := by
  refine ⟨rfl, List.mergeSort_perm s.events (fieldLe f),
    List.sorted_mergeSort (fieldLe_trans f) (fieldLe_total f) s.events, rfl, ?_, rfl⟩
  intro k
  show (s.events.length + 10 - 1) / 10 ≤ k ↔ s.events.length ≤ 10 * k
  omega

/-- C8: the update route is guarded by `auth` alone, so every authenticated
caller — whatever their role — passes its middleware (the route never answers
401/403 to them), while the delete route is guarded by `auth` and `isAdmin`:
unauthenticated callers get 401 on both, non-ADMIN callers get 403 on delete,
and ADMIN callers reach the delete handler. -/
theorem put_vs_delete_authorization (s : Store) (eid : Nat) (d : EventData) :
    (∀ u : User,
      (putEventRoute (some u) s eid d).1 ≠ RouteResult.unauthorized ∧
      (putEventRoute (some u) s eid d).1 ≠ RouteResult.forbidden) ∧
    (putEventRoute none s eid d).1 = RouteResult.unauthorized ∧
    (∀ u : User, u.role ≠ Role.admin →
      deleteEventRoute (some u) s eid = (RouteResult.forbidden, s)) ∧
    (deleteEventRoute none s eid).1 = RouteResult.unauthorized ∧
    (∀ u : User, u.role = Role.admin →
      deleteEventRoute (some u) s eid = deleteEvent s eid) := by
  refine ⟨fun u => ?_, rfl, fun u hu => ?_, rfl, fun u hu => ?_⟩
  · simp only [putEventRoute, authPasses, Option.isSome_some, if_true]
    unfold updateEvent
    split
    · exact ⟨by simp, by simp⟩
    · split
      · exact ⟨by simp, by simp⟩
      · exact ⟨by simp, by simp⟩
  · have hb : (u.role == Role.admin) = false := by
      cases h : u.role
      · exact absurd h hu
      · rfl
    simp [deleteEventRoute, authPasses, isAdminPasses, hb]
  · have hb : (Role.admin == Role.admin) = true := rfl
    simp [deleteEventRoute, authPasses, isAdminPasses, hu, hb]

/-- `put_vs_delete_authorization` at concrete callers: a USER-role caller
passes the update route's middleware but is rejected by the delete route,
while an ADMIN caller reaches the delete handler. -/
theorem put_vs_delete_authorization_witness :
    (putEventRoute (some exUserAcc) exStore 0 exData).1 ≠ RouteResult.unauthorized ∧
    deleteEventRoute (some exUserAcc) exStore 0 = (RouteResult.forbidden, exStore) ∧
    deleteEventRoute (some exAdminAcc) exStore 0 = deleteEvent exStore 0 := by
  have h := put_vs_delete_authorization exStore 0 exData
  exact ⟨(h.1 exUserAcc).1, h.2.2.1 exUserAcc (by decide), h.2.2.2.2 exAdminAcc rfl⟩

/-- Appending a PENDING row changes no CONFIRMED count. -/
theorem confirmedCount_append_pending (regs : List Registration) (r : Registration)
    (h : r.status = RegStatus.pending) (eid : Nat) :
    confirmedCount (regs ++ [r]) eid = confirmedCount regs eid := by
  have hb : (r.status == RegStatus.confirmed) = false := by rw [h]; rfl
  simp [confirmedCount, List.filter_append, List.filter_cons, hb]

/-- With every registration PENDING, every CONFIRMED count is zero. -/
theorem confirmedCount_eq_zero (regs : List Registration)
    (h : ∀ r ∈ regs, r.status = RegStatus.pending) (eid : Nat) :
    confirmedCount regs eid = 0 := by
  unfold confirmedCount
  rw [List.length_eq_zero, List.filter_eq_nil_iff]
  intro r hr
  have hb : (r.status == RegStatus.confirmed) = false := by rw [h r hr]; rfl
  simp [hb]

/-- Every transition preserves the pending-status and positive-capacity
invariants. -/
theorem applyOp_preserves (s : Store) (o : Op)
    (h1 : allPendingInv s) (h2 : capacityPosInv s) :
    allPendingInv (applyOp s o) ∧ capacityPosInv (applyOp s o) := by
  cases o with
  | signup n e p r =>
    exact ⟨fun x hx => h1 x hx, fun x hx => h2 x hx⟩
  | removeUser uid =>
    exact ⟨fun x hx => h1 x (List.mem_of_mem_filter hx), fun x hx => h2 x hx⟩
  | addEvent d =>
    by_cases hc : d.capacity < 1
    · have heq : applyOp s (Op.addEvent d) = s := by simp [applyOp, createEvent, hc]
      rw [heq]; exact ⟨h1, h2⟩
    · have heq : applyOp s (Op.addEvent d) =
          { s with
              events := s.events ++
                [{ id := s.nextEventId, name := d.name, description := d.description,
                   date := d.date, location := d.location, capacity := d.capacity }],
              nextEventId := s.nextEventId + 1 } := by
        simp [applyOp, createEvent, hc]
      rw [heq]
      refine ⟨fun x hx => h1 x hx, fun x hx => ?_⟩
      rcases List.mem_append.mp hx with hm | hm
      · exact h2 x hm
      · rw [List.mem_singleton.mp hm]
        exact Nat.not_lt.mp hc
  | editEvent eid d =>
    cases hfind : findEvent s.events eid with
    | none =>
      have heq : applyOp s (Op.editEvent eid d) = s := by
        simp [applyOp, updateEvent, hfind]
      rw [heq]; exact ⟨h1, h2⟩
    | some ev =>
      by_cases hc : d.capacity < 1
      · have heq : applyOp s (Op.editEvent eid d) = s := by
          simp [applyOp, updateEvent, hfind, hc]
        rw [heq]; exact ⟨h1, h2⟩
      · have heq : applyOp s (Op.editEvent eid d) =
            { s with
                events :=
                  s.events.map
                    (fun e => if e.id == ev.id then updateEventRow ev d else e) } := by
          simp [applyOp, updateEvent, hfind, hc]
        rw [heq]
        refine ⟨fun x hx => h1 x hx, fun x hx => ?_⟩
        obtain ⟨a, ha, hax⟩ := List.mem_map.mp hx
        by_cases hid : (a.id == ev.id) = true
        · rw [if_pos hid] at hax
          rw [← hax]
          exact Nat.not_lt.mp hc
        · rw [if_neg hid] at hax
          rw [← hax]
          exact h2 a ha
  | removeEvent eid =>
    cases hfind : findEvent s.events eid with
    | none =>
      have heq : applyOp s (Op.removeEvent eid) = s := by
        simp [applyOp, deleteEvent, hfind]
      rw [heq]; exact ⟨h1, h2⟩
    | some ev =>
      have heq : applyOp s (Op.removeEvent eid) = destroyEvent s ev.id := by
        simp [applyOp, deleteEvent, hfind]
      rw [heq]
      exact ⟨fun x hx => h1 x (List.mem_of_mem_filter hx),
             fun x hx => h2 x (List.mem_of_mem_filter hx)⟩
  | register eid uid =>
    cases hfind : findEvent s.events eid with
    | none =>
      have heq : applyOp s (Op.register eid uid) = s := by
        simp [applyOp, registerForEvent, hfind]
      rw [heq]; exact ⟨h1, h2⟩
    | some ev =>
      by_cases hge : confirmedCount s.registrations ev.id ≥ ev.capacity
      · have heq : applyOp s (Op.register eid uid) = s := by
          simp [applyOp, registerForEvent, hfind, hge]
        rw [heq]; exact ⟨h1, h2⟩
      · have heq : applyOp s (Op.register eid uid) =
            { s with
                registrations := s.registrations ++
                  [{ id := s.nextRegId, status := RegStatus.pending,
                     UserId := some uid, EventId := some ev.id }],
                nextRegId := s.nextRegId + 1 } := by
          simp [applyOp, registerForEvent, hfind, hge]
        rw [heq]
        refine ⟨fun x hx => ?_, fun x hx => h2 x hx⟩
        rcases List.mem_append.mp hx with hm | hm
        · exact h1 x hm
        · rw [List.mem_singleton.mp hm]

/-- The invariants hold in every reachable store. -/
theorem reachable_inv (s : Store) (h : reachable s) :
    allPendingInv s ∧ capacityPosInv s := by
  obtain ⟨ops, rfl⟩ := h
  have main : ∀ (l : List Op) (t : Store),
      allPendingInv t → capacityPosInv t →
      allPendingInv (l.foldl applyOp t) ∧ capacityPosInv (l.foldl applyOp t) := by
    intro l
    induction l with
    | nil => exact fun t a b => ⟨a, b⟩
    | cons o rest ih =>
      intro t a b
      obtain ⟨a2, b2⟩ := applyOp_preserves t o a b
      exact ih _ a2 b2
  exact main ops initStore (fun r hr => by cases hr) (fun e he => by cases he)

/-- C2: in every store reachable through the system's transitions, every
event's count of CONFIRMED registrations is at most its capacity. -/
theorem reachable_confirmed_le_capacity (s : Store) (h : reachable s)
    (e : Event) (he : e ∈ s.events) :
    confirmedCount s.registrations e.id ≤ e.capacity := by
  have hz := confirmedCount_eq_zero s.registrations (reachable_inv s h).1 e.id
  rw [hz]
  exact Nat.zero_le _

/-- `reachable_confirmed_le_capacity` on the store reached by creating one
event and registering one user for it. -/
theorem reachable_confirmed_le_capacity_witness :
    confirmedCount (exOps.foldl applyOp initStore).registrations exEvent.id
      ≤ exEvent.capacity :=
  reachable_confirmed_le_capacity _ ⟨exOps, rfl⟩ exEvent (List.mem_cons_self _ _)

/-- C9: in every store reachable from the empty database, every registration
row has status PENDING, every CONFIRMED count is zero, and the register
handler's `Event is full` branch is never taken. -/
theorem reachable_all_registrations_pending (s : Store) (h : reachable s) :
    (∀ r ∈ s.registrations, r.status = RegStatus.pending) ∧
    (∀ eid, confirmedCount s.registrations eid = 0) ∧
    (∀ eid uid, (registerForEvent s eid uid).1 ≠ RegisterResult.eventFull) := by
  obtain ⟨hp, hc⟩ := reachable_inv s h
  refine ⟨hp, fun eid => confirmedCount_eq_zero _ hp eid, fun eid uid => ?_⟩
  cases hfind : findEvent s.events eid with
  | none => simp [registerForEvent, hfind]
  | some ev =>
    have h1 : 1 ≤ ev.capacity := hc ev (List.mem_of_find?_eq_some hfind)
    have h0 : confirmedCount s.registrations ev.id = 0 :=
      confirmedCount_eq_zero _ hp ev.id
    have hlt : ¬ confirmedCount s.registrations ev.id ≥ ev.capacity := by omega
    simp [registerForEvent, hfind, hlt]

/-- `reachable_all_registrations_pending` on the store reached by creating one
event and registering one user for it. -/
theorem reachable_all_registrations_pending_witness :
    exReg0.status = RegStatus.pending ∧
    confirmedCount (exOps.foldl applyOp initStore).registrations 0 = 0 ∧
    (registerForEvent (exOps.foldl applyOp initStore) 0 9).1
      ≠ RegisterResult.eventFull := by
  have h := reachable_all_registrations_pending _ ⟨exOps, rfl⟩
  exact ⟨h.1 exReg0 (List.mem_cons_self _ _), h.2.1 0, h.2.2 0 9⟩

/-- C10: the register handler performs no duplicate check for the requesting
user and the schema has no uniqueness constraint on (UserId, EventId): from
any store whose capacity gate passes for the event, n repeated register calls
by the same user all succeed, appending n pairwise-distinct new rows, each
referencing that user and that event. -/
theorem register_repeated_same_user (s : Store) (eid uid : Nat) (ev : Event) (n : Nat)
    (hfind : findEvent s.events eid = some ev)
    (hlt : confirmedCount s.registrations ev.id < ev.capacity) :
    (∀ res ∈ (repeatRegister s eid uid n).1, ∃ r, res = RegisterResult.created r) ∧
    ∃ newRegs : List Registration,
      (repeatRegister s eid uid n).2.registrations = s.registrations ++ newRegs ∧
      newRegs.length = n ∧
      newRegs.Nodup ∧
      newRegs.map (fun r => r.id) = List.range' s.nextRegId n ∧
      ∀ r ∈ newRegs, r.UserId = some uid ∧ r.EventId = some ev.id := by
  induction n generalizing s with
  | zero =>
    refine ⟨?_, [], ?_, rfl, List.nodup_nil, rfl, ?_⟩
    · intro res hres; cases hres
    · simp [repeatRegister]
    · intro r hr; cases hr
  | succ n ih =>
    have hp : registerForEvent s eid uid =
        (RegisterResult.created
           { id := s.nextRegId, status := RegStatus.pending,
             UserId := some uid, EventId := some ev.id },
         { s with
             registrations := s.registrations ++
               [{ id := s.nextRegId, status := RegStatus.pending,
                  UserId := some uid, EventId := some ev.id }],
             nextRegId := s.nextRegId + 1 }) := by
      simp [registerForEvent, hfind, Nat.not_le.mpr hlt]
    set r0 : Registration :=
      { id := s.nextRegId, status := RegStatus.pending,
        UserId := some uid, EventId := some ev.id } with hr0
    set s1 : Store :=
      { s with registrations := s.registrations ++ [r0],
               nextRegId := s.nextRegId + 1 } with hs1
    have hfind1 : findEvent s1.events eid = some ev := hfind
    have hlt1 : confirmedCount s1.registrations ev.id < ev.capacity := by
      have hcc : confirmedCount s1.registrations ev.id
          = confirmedCount s.registrations ev.id :=
        confirmedCount_append_pending s.registrations r0 rfl ev.id
      rw [hcc]
      exact hlt
    obtain ⟨ha, newRegs, h1, h2, h3, h4, h5⟩ := ih s1 hfind1 hlt1
    have hstep : repeatRegister s eid uid (n + 1)
        = ((RegisterResult.created r0) :: (repeatRegister s1 eid uid n).1,
           (repeatRegister s1 eid uid n).2) := by
      simp only [repeatRegister, hp]
    constructor
    · intro res hres
      rw [hstep] at hres
      rcases List.mem_cons.mp hres with hm | hm
      · exact ⟨r0, hm⟩
      · exact ha res hm
    · refine ⟨r0 :: newRegs, ?_, ?_, ?_, ?_, ?_⟩
      · rw [hstep]
        show (repeatRegister s1 eid uid n).2.registrations = _
        rw [h1]
        show (s.registrations ++ [r0]) ++ newRegs = s.registrations ++ (r0 :: newRegs)
        rw [List.append_assoc]
        rfl
      · simp [h2]
      · refine List.nodup_cons.mpr ⟨fun hmem => ?_, h3⟩
        have hid : r0.id ∈ newRegs.map (fun r => r.id) := List.mem_map_of_mem _ hmem
        rw [h4] at hid
        have hge := (List.mem_range'_1.mp hid).1
        simp only [hr0] at hge
        omega
      · show r0.id :: newRegs.map (fun r => r.id) = List.range' s.nextRegId (n + 1)
        rw [h4, List.range'_succ]
      · intro r hr
        rcases List.mem_cons.mp hr with hm | hm
        · rw [hm]
          exact ⟨rfl, rfl⟩
        · exact h5 r hm

/-- `register_repeated_same_user` driven past capacity: three sequential
registrations by user 7 against the capacity-2 event all succeed, leaving
three rows. -/
theorem register_repeated_same_user_witness :
    (repeatRegister exStore 0 7 3).2.registrations.length = 3 := by
  obtain ⟨-, newRegs, he, hlen, -, -, -⟩ :=
    register_repeated_same_user exStore 0 7 exEvent 3 (by decide) (by decide)
  rw [he, List.length_append, hlen]
  rfl

end EventsApi
